import Mathlib

/-!
Verification of `generate_labels.py` (cable-label generator).

Strings are embedded as `List Char`; the Python string operations used by
the program (`str.strip`, `str.split`, `str.replace`, single-space join,
substring test, slicing) are modelled as executable functions below.  Geometry uses
exact rationals `ℚ` for the coordinates the Python code computes with
floats; every constant in the source (5, 2.5, 2, 12, 22, ...) is exactly
representable, and the claims are about the exact arithmetic the formulas
denote.
-/

abbrev Str := List Char

/-- Python `str.strip()`: remove leading and trailing whitespace. -/
def pyStrip (s : Str) : Str :=
  ((s.dropWhile Char.isWhitespace).reverse.dropWhile Char.isWhitespace).reverse

/-- Accumulator-based worker for `pySplit`; `acc` holds the reversed
current token. -/
def pySplitAux (acc : Str) : Str → List Str
  | [] => if acc = [] then [] else [acc.reverse]
  | c :: cs =>
    if c.isWhitespace then
      if acc = [] then pySplitAux [] cs else acc.reverse :: pySplitAux [] cs
    else
      pySplitAux (c :: acc) cs

/-- Python `str.split()` with no argument: split on runs of whitespace,
dropping empty tokens. -/
def pySplit (s : Str) : List Str :=
  pySplitAux [] s

/-- Python single-space join of a token list. -/
def joinTokens (ts : List Str) : Str :=
  List.intercalate [' '] ts

/-- Worker for `pyReplace`, fuel-recursive so that it is structurally
recursive and kernel-computable; one unit of fuel is spent per character
of the scanned suffix, which suffices when the pattern is non-empty. -/
def pyReplaceAux (pat rep : Str) : Str → Nat → Str
  | s, 0 => s
  | [], _ + 1 => []
  | c :: cs, n + 1 =>
    if pat.isPrefixOf (c :: cs) then
      rep ++ pyReplaceAux pat rep ((c :: cs).drop pat.length) n
    else
      c :: pyReplaceAux pat rep cs n

/-- Python `s.replace(pat, rep)` for a non-empty pattern: replace every
(left-to-right, non-overlapping) occurrence.  All call sites in the source
use non-empty patterns. -/
def pyReplace (pat rep s : Str) : Str :=
  match pat with
  | [] => s
  | _ :: _ => pyReplaceAux pat rep s s.length

/-- Python `s.replace` with the empty string as replacement: delete every
occurrence of `pat`. -/
def pyRemoveAll (pat s : Str) : Str :=
  pyReplace pat [] s

/-- Python `pat in s` (substring test): `pat` is a prefix of some suffix
of `s`. -/
def pyContains (pat : Str) : Str → Bool
  | [] => pat.isEmpty
  | c :: cs => pat.isPrefixOf (c :: cs) || pyContains pat cs

/-- The `CableData` dataclass (source lines 18-36). -/
structure CableData where
  cable_id : Str
  specification : Str
  origin : Str
  destination : Str
  size : Str
  type : Str
deriving DecidableEq

/-- The `CableData` constructor together with `__post_init__`
(source lines 28-36): `size`/`type` default to `""` and are overwritten
from `specification` when it has at least one whitespace token. -/
def mkCableData (id spec origin dest : Str) : CableData :=
  match pySplit spec with
  | [] => ⟨id, spec, origin, dest, [], []⟩
  | p :: rest =>
    ⟨id, spec, origin, dest,
     if pyContains ('m' :: ['m']) p then p else [],
     if rest.length > 0 then joinTokens rest else []⟩

/-- A CSV row, as the list of its fields (the `csv.reader` field-splitting
is abstracted: rows arrive already split into fields). -/
abbrev Row := List Str

def originMarker : Str := "ORIGIN: ".toList
def destMarker : Str := "DESTINATION: ".toList

/-- Row-to-record mapping, the body of the `for row in reader` loop
(source lines 79-98).  Returns `none` for a dropped row. -/
def parseRow (row : Row) : Option CableData :=
  if row.length ≥ 4 then
    let cable := mkCableData (pyStrip (row.getD 0 []))
      (pyStrip (row.getD 1 []))
      (pyRemoveAll originMarker (pyStrip (row.getD 2 [])))
      (pyRemoveAll destMarker (pyStrip (row.getD 3 [])))
    if cable.cable_id ≠ [] then some cable else none
  else if row.length ≥ 2 then
    let cable := mkCableData (pyStrip (row.getD 0 []))
      (pyStrip (row.getD 1 []))
      (if row.length > 2 then pyStrip (row.getD 2 []) else [])
      (if row.length > 3 then pyStrip (row.getD 3 []) else [])
    if cable.cable_id ≠ [] then some cable else none
  else
    none

/-- The header-keyword set of source line 71. -/
def headerKeywords : List Str :=
  ["cable".toList, "id".toList, "origin".toList, "destination".toList, "spec".toList]

/-- The header-sniff line `first_line = sample.split('\n')[0]` where `sample = f.read(1024)`
(source lines 65-69). -/
def firstLineOf (content : Str) : Str :=
  (content.take 1024).takeWhile (fun c => c ≠ '\n')

/-- Header detection (source lines 70-71): some keyword occurs in the
lower-cased first line. -/
def hasHeader (content : Str) : Bool :=
  headerKeywords.any (fun k => pyContains k ((firstLineOf content).map Char.toLower))

/-- Model of `parse_csv` (source lines 54-106) over the file content (used only for
header sniffing) and the already-field-split rows: skip the first row when
a header is detected, then map the remaining rows through `parseRow`,
keeping the successes in order. -/
def parse_csv (content : Str) (rows : List Row) : List CableData :=
  if hasHeader content then (rows.tail).filterMap parseRow
  else rows.filterMap parseRow

/-- A DXF modelspace entity, as produced by `msp.add_lwpolyline` /
`msp.add_text`.  `centered` records whether `halign=CENTER` was set. -/
inductive Entity
  | polyline (pts : List (ℚ × ℚ)) (layer : Str)
  | text (content : Str) (height : ℚ) (insert : ℚ × ℚ) (centered : Bool) (layer : Str)
deriving DecidableEq

def Entity.layerOf : Entity → Str
  | .polyline _ l => l
  | .text _ _ _ _ l => l

def cuttingLayer : Str := "Cutting".toList
def holeLayer : Str := "Hole".toList
def textLayer : Str := "Text".toList

/-- The per-hole rectangle of the hole-drawing loop (identical in source
lines 144-152 and 281-289): a closed 5 x 2.5 rectangle centered at
`(hx, hy)`, first point repeated. -/
def holePts (hx hy : ℚ) : List (ℚ × ℚ) :=
  let hole_width : ℚ := 5
  let hole_height : ℚ := 5 / 2
  [(hx - hole_width / 2, hy - hole_height / 2),
   (hx + hole_width / 2, hy - hole_height / 2),
   (hx + hole_width / 2, hy + hole_height / 2),
   (hx - hole_width / 2, hy + hole_height / 2),
   (hx - hole_width / 2, hy - hole_height / 2)]

/-- Model of `create_label_dxf` (source lines 108-209): the modelspace entity list
of one individual label drawn at origin `(0, 0)`.  File output and layer
declarations are not part of the entity list. -/
def create_label_dxf (cable : CableData) (label_width label_height : ℚ) : List Entity :=
  let hole_offset : ℚ := 5
  let text_margin : ℚ := 5
  let spec_text :=
    if cable.specification.length > 55 then cable.specification.take 55
    else cable.specification
  [Entity.polyline
     [(0, 0), (label_width, 0), (label_width, label_height),
      (0, label_height), (0, 0)] cuttingLayer]
  ++ [(hole_offset, hole_offset),
      (label_width - hole_offset, hole_offset),
      (hole_offset, label_height - hole_offset),
      (label_width - hole_offset, label_height - hole_offset)].map
       (fun p => Entity.polyline (holePts p.1 p.2) holeLayer)
  ++ [Entity.text cable.cable_id 7 (label_width / 2, label_height - 12) true textLayer,
      Entity.text spec_text 4 (label_width / 2, label_height - 22) true textLayer]
  ++ (if cable.origin ≠ [] then
        [Entity.text
          ("ORIGIN: ".toList ++
            (if cable.origin.length > 45 then cable.origin.take 45 else cable.origin))
          (7 / 2) (text_margin, 14) false textLayer]
      else [])
  ++ (if cable.destination ≠ [] then
        [Entity.text
          ("DEST: ".toList ++
            (if cable.destination.length > 45 then cable.destination.take 45
             else cable.destination))
          (7 / 2) (text_margin, 7) false textLayer]
      else [])

/-- Model of `_draw_label_at_position` (source lines 255-344): the entities drawn for
one grid cell at world origin `(x, y)`. -/
def drawLabelAtPosition (cable : CableData) (x y width height : ℚ) : List Entity :=
  let hole_offset : ℚ := 5
  let text_margin : ℚ := 3
  let spec :=
    if cable.specification.length > 50 then cable.specification.take 50
    else cable.specification
  [Entity.polyline
     [(x, y), (x + width, y), (x + width, y + height),
      (x, y + height), (x, y)] cuttingLayer]
  ++ [(x + hole_offset, y + hole_offset),
      (x + width - hole_offset, y + hole_offset),
      (x + hole_offset, y + height - hole_offset),
      (x + width - hole_offset, y + height - hole_offset)].map
       (fun p => Entity.polyline (holePts p.1 p.2) holeLayer)
  ++ [Entity.text cable.cable_id 6 (x + width / 2, y + height - 12) true textLayer,
      Entity.text spec (7 / 2) (x + width / 2, y + height - 22) true textLayer]
  ++ (if cable.origin ≠ [] then
        [Entity.text
          ("ORIGIN: ".toList ++
            (if cable.origin.length > 40 then cable.origin.take 40 else cable.origin))
          (16 / 5) (x + text_margin, y + 12) false textLayer]
      else [])
  ++ (if cable.destination ≠ [] then
        [Entity.text
          ("DEST: ".toList ++
            (if cable.destination.length > 40 then cable.destination.take 40
             else cable.destination))
          (16 / 5) (x + text_margin, y + 6) false textLayer]
      else [])

/-- One call of `_draw_label_at_position`, with its two effects made
explicit: the entities appended to the modelspace `msp`, and the state of
the (never-assigned) `cable` argument after the call. -/
def drawLabelCall (msp : List Entity) (cable : CableData) (x y width height : ℚ) :
    List Entity × CableData :=
  (msp ++ drawLabelAtPosition cable x y width height, cable)

/-- Model of `rows_needed = (len(cables) + labels_per_row - 1) // labels_per_row`
(source line 233). -/
def rowsNeeded (count labels_per_row : Nat) : Nat :=
  (count + labels_per_row - 1) / labels_per_row

/-- The `total_height` of the sheet grid (source line 234). -/
def sheetTotalHeight (count cols : Nat) (label_height spacing : ℚ) : ℚ :=
  (rowsNeeded count cols : ℚ) * (label_height + spacing) + spacing

/-- Cell origin of the item at flat index `idx` (source lines 240-244):
`row = idx // cols`, `col = idx % cols`,
`x = spacing + col * (w + spacing)`,
`y = total_height - (row + 1) * (h + spacing)`. -/
def cellOrigin (count cols : Nat) (w h s : ℚ) (idx : Nat) : ℚ × ℚ :=
  let row := idx / cols
  let col := idx % cols
  (s + (col : ℚ) * (w + s),
   sheetTotalHeight count cols h s - ((row : ℚ) + 1) * (h + s))

/-- Model of `create_multi_label_sheet` (source lines 215-253): the concatenated
entities of all cells, each drawn by `_draw_label_at_position` at its cell
origin. -/
def create_multi_label_sheet (cables : List CableData) (cols : Nat) (w h s : ℚ) :
    List Entity :=
  (cables.enum.map (fun p =>
    let pos := cellOrigin cables.length cols w h s p.1
    drawLabelAtPosition p.2 pos.1 pos.2 w h)).flatten

/-- Axis-aligned rectangle, for stating non-overlap of label outlines. -/
structure Rect where
  x : ℚ
  y : ℚ
  w : ℚ
  h : ℚ

/-- The closed point set of a rectangle. -/
def Rect.toSet (r : Rect) : Set (ℚ × ℚ) :=
  {p | r.x ≤ p.1 ∧ p.1 ≤ r.x + r.w ∧ r.y ≤ p.2 ∧ p.2 ≤ r.y + r.h}

/-- The outline rectangle of the grid cell at flat index `idx`. -/
def cellRect (count cols : Nat) (w h s : ℚ) (idx : Nat) : Rect :=
  ⟨(cellOrigin count cols w h s idx).1, (cellOrigin count cols w h s idx).2, w, h⟩

/-- Fuel-recursive worker for the batch slicing; one unit of fuel per
batch step suffices since each step consumes at least one element. -/
def batchesAux {α : Type} : Nat → List α → List (List α)
  | _, [] => []
  | 0, _ :: _ => []
  | n + 1, l => l.take 18 :: batchesAux n (l.drop 18)

/-- Model of `batches = [cables[i:i+batch_size] for i in range(0, len(cables),
batch_size)]` with `batch_size = 18` (source lines 395-397). -/
def pyBatches {α : Type} (l : List α) : List (List α) :=
  batchesAux l.length l

/-- Python `f"{n:02d}"` for the sheet number. -/
def pad2 (n : Nat) : Str :=
  if n < 10 then '0' :: (toString n).toList else (toString n).toList

/-- Python `f"cable_{cable.cable_id.replace('/', '_')}.dxf"` (source line 380). -/
def individualFilename (cable : CableData) : Str :=
  "cable_".toList ++ pyReplace ['/'] ['_'] cable.cable_id ++ ".dxf".toList

/-- The individual-label filenames, in cable order (source lines 377-385). -/
def individualFiles (cables : List CableData) : List Str :=
  cables.map individualFilename

/-- Python `f"cable_labels_sheet_{batch_num:02d}.dxf"` (source line 400). -/
def sheetFilename (batch_num : Nat) : Str :=
  "cable_labels_sheet_".toList ++ pad2 batch_num ++ ".dxf".toList

/-- The sheet filenames, with `batch_num` running from 1 as in
`enumerate(batches, 1)` (source lines 399-400). -/
def sheetFiles (cables : List CableData) : List Str :=
  (List.range (pyBatches cables).length).map (fun i => sheetFilename (i + 1))

/-- The ordered list of files `generate_all_labels` plans to write
(source lines 346-421): nothing when no cables were parsed, otherwise the
individual files (when requested) followed by the sheet files (when not
suppressed). -/
def generate_all_labels (cables : List CableData) (individual combined : Bool) :
    List Str :=
  if cables.length = 0 then []
  else
    (if individual then individualFiles cables else [])
      ++ (if combined then sheetFiles cables else [])

/-- The write behaviour of the run: files are written in order; an
exception from a failing write propagates out of `generate_all_labels`
(there is no per-file handler in source lines 376-411), so the loop stops
at the first failure.  Returns the files actually written and whether the
run completed. -/
def writeLoop (writeOk : Str → Bool) : List Str → List Str × Bool
  | [] => ([], true)
  | f :: fs =>
    if writeOk f then
      let r := writeLoop writeOk fs
      (f :: r.1, r.2)
    else ([], false)

/-- A whole run of `generate_all_labels` against a write oracle. -/
def runGeneration (writeOk : Str → Bool) (cables : List CableData)
    (individual combined : Bool) : List Str × Bool :=
  writeLoop writeOk (generate_all_labels cables individual combined)

/-- Neutral geometric description used to state the hole claim: the closed
rectangle of width `rw` and height `rh` centered at `(cx, cy)`, first
point repeated. -/
def centeredClosedRect (cx cy rw rh : ℚ) : List (ℚ × ℚ) :=
  [(cx - rw / 2, cy - rh / 2), (cx + rw / 2, cy - rh / 2),
   (cx + rw / 2, cy + rh / 2), (cx - rw / 2, cy + rh / 2),
   (cx - rw / 2, cy - rh / 2)]

/-- The text contents of an entity list, in drawing order. -/
def textsOf (es : List Entity) : List Str :=
  es.filterMap (fun e => match e with
    | .text s _ _ _ _ => some s
    | _ => none)

/-! ## Helper lemmas -/

lemma joinTokens_nil : joinTokens [] = [] := rfl

lemma mkCableData_cable_id (i s o d : Str) : (mkCableData i s o d).cable_id = i := by
  unfold mkCableData
  split <;> rfl

lemma mkCableData_specification (i s o d : Str) :
    (mkCableData i s o d).specification = s := by
  unfold mkCableData
  split <;> rfl

lemma mkCableData_origin (i s o d : Str) : (mkCableData i s o d).origin = o := by
  unfold mkCableData
  split <;> rfl

lemma mkCableData_destination (i s o d : Str) :
    (mkCableData i s o d).destination = d := by
  unfold mkCableData
  split <;> rfl

/-! ## C2 -/

/-- C2: for every `CableData` record, `size` is the first
whitespace-delimited token of `specification` when that token contains the
substring "mm" and is empty otherwise; `type` is the tokens after the
first joined by single spaces (empty when there are none); when
`specification` has no tokens at all, both are empty. -/
theorem mkCableData_size_type (id spec origin dest : Str) :
    (∀ t ts, pySplit spec = t :: ts →
      (mkCableData id spec origin dest).size
          = (if pyContains ('m' :: ['m']) t then t else [])
        ∧ (mkCableData id spec origin dest).type = joinTokens ts)
    ∧ (pySplit spec = [] →
        (mkCableData id spec origin dest).size = []
          ∧ (mkCableData id spec origin dest).type = []) := by
  constructor
  · intro t ts hsplit
    unfold mkCableData
    rw [hsplit]
    refine ⟨rfl, ?_⟩
    cases ts with
    | nil => simp [joinTokens_nil]
    | cons a as => simp
  · intro hsplit
    unfold mkCableData
    rw [hsplit]
    exact ⟨rfl, rfl⟩

/-- Witness for C2 at the sample specification of the source comment. -/
theorem mkCableData_size_type_witness :
    pySplit ("500mm 110 XLPE CU FLEX".toList)
        = "500mm".toList
            :: ["110".toList, "XLPE".toList, "CU".toList, "FLEX".toList]
    ∧ ((mkCableData ("C-1".toList) "500mm 110 XLPE CU FLEX".toList [] []).size
          = (if pyContains ('m' :: ['m']) "500mm".toList then ("500mm".toList) else [])
        ∧ (mkCableData ("C-1".toList) "500mm 110 XLPE CU FLEX".toList [] []).type
          = joinTokens ["110".toList, "XLPE".toList, "CU".toList, "FLEX".toList]) :=
  ⟨by decide,
   (mkCableData_size_type ("C-1".toList) "500mm 110 XLPE CU FLEX".toList [] []).1
     "500mm".toList ["110".toList, "XLPE".toList, "CU".toList, "FLEX".toList]
     (by decide)⟩

/-! ## C3 -/

lemma batchesAux_flatten {α : Type} :
    ∀ (n : Nat) (l : List α), l.length ≤ n → (batchesAux n l).flatten = l := by
  intro n
  induction n with
  | zero =>
    intro l hl
    cases l with
    | nil => rfl
    | cons a as => simp at hl
  | succ n ih =>
    intro l hl
    cases l with
    | nil => rfl
    | cons a as =>
      show (List.take 18 (a :: as) :: batchesAux n (List.drop 18 (a :: as))).flatten
          = a :: as
      rw [List.flatten_cons, ih _ (by simp at hl ⊢; omega), List.take_append_drop]

lemma batchesAux_length {α : Type} :
    ∀ (n : Nat) (l : List α), l.length ≤ n →
      (batchesAux n l).length = (l.length + 17) / 18 := by
  intro n
  induction n with
  | zero =>
    intro l hl
    cases l with
    | nil => norm_num [batchesAux]
    | cons a as => simp at hl
  | succ n ih =>
    intro l hl
    cases l with
    | nil => norm_num [batchesAux]
    | cons a as =>
      show (List.take 18 (a :: as) :: batchesAux n (List.drop 18 (a :: as))).length
          = ((a :: as).length + 17) / 18
      rw [List.length_cons, ih _ (by simp at hl ⊢; omega)]
      simp only [List.length_drop, List.length_cons]
      omega

lemma batchesAux_ne_nil {α : Type} (n : Nat) (a : α) (as : List α) :
    batchesAux (n + 1) (a :: as) ≠ [] := by
  intro hcontra
  exact List.cons_ne_nil _ _ hcontra

lemma batchesAux_dropLast {α : Type} :
    ∀ (n : Nat) (l : List α), l.length ≤ n →
      ∀ b ∈ (batchesAux n l).dropLast, b.length = 18 := by
  intro n
  induction n with
  | zero =>
    intro l hl b hb
    cases l with
    | nil => simp [batchesAux] at hb
    | cons a as => simp at hl
  | succ n ih =>
    intro l hl b hb
    cases l with
    | nil => simp [batchesAux] at hb
    | cons a as =>
      have hstep : batchesAux (n + 1) (a :: as)
          = List.take 18 (a :: as) :: batchesAux n (List.drop 18 (a :: as)) := rfl
      rw [hstep] at hb
      have hl' : as.length + 1 ≤ n + 1 := by simpa using hl
      cases hrest : List.drop 18 (a :: as) with
      | nil =>
        rw [hrest] at hb
        simp [batchesAux] at hb
      | cons c cs =>
        have hdl : as.length + 1 - 18 = cs.length + 1 := by
          have hlen := congrArg List.length hrest
          simpa using hlen
        have hn1 : 1 ≤ n := by omega
        obtain ⟨m, hm⟩ := Nat.exists_eq_add_of_le hn1
        have hnonnil : batchesAux n (List.drop 18 (a :: as)) ≠ [] := by
          rw [hrest, hm, Nat.add_comm]
          exact batchesAux_ne_nil m c cs
        rw [List.dropLast_cons_of_ne_nil hnonnil] at hb
        rcases List.mem_cons.mp hb with hb1 | hb2
        · rw [hb1, List.length_take, List.length_cons]
          omega
        · refine ih _ ?_ b hb2
          rw [List.length_drop, List.length_cons]
          omega

/-- C3: batching at capacity 18 produces exactly ceil(L/18) batches, every
batch except possibly the last has exactly 18 records, and concatenating
the batches in order reproduces the original sequence. -/
theorem pyBatches_partition (cables : List CableData) :
    (pyBatches cables).length = (cables.length + 17) / 18
    ∧ (∀ b ∈ (pyBatches cables).dropLast, b.length = 18)
    ∧ (pyBatches cables).flatten = cables :=
  ⟨batchesAux_length cables.length cables le_rfl,
   batchesAux_dropLast cables.length cables le_rfl,
   batchesAux_flatten cables.length cables le_rfl⟩

/-- Witness for C3 on a concrete 20-cable sequence: the first batch is a
non-final batch and has exactly 18 records. -/
theorem pyBatches_partition_witness :
    List.take 18 (List.replicate 20 (mkCableData ("A".toList) [] [] []))
        ∈ (pyBatches (List.replicate 20 (mkCableData ("A".toList) [] [] []))).dropLast
    ∧ (List.take 18 (List.replicate 20 (mkCableData ("A".toList) [] [] []))).length = 18 :=
  ⟨by decide,
   (pyBatches_partition (List.replicate 20 (mkCableData ("A".toList) [] [] []))).2.1
     _ (by decide)⟩

/-! ## C1 -/

/-- The record a well-formed 4-field row is mapped to. -/
def recordOfRow (r : Row) : CableData :=
  mkCableData (pyStrip (r.getD 0 [])) (pyStrip (r.getD 1 []))
    (pyRemoveAll originMarker (pyStrip (r.getD 2 [])))
    (pyRemoveAll destMarker (pyStrip (r.getD 3 [])))

lemma parseRow_four_field (r : Row) (h4 : 4 ≤ r.length)
    (hid : pyStrip (r.getD 0 []) ≠ []) :
    parseRow r = some (recordOfRow r) := by
  unfold parseRow recordOfRow
  rw [if_pos h4, if_pos]
  rw [mkCableData_cable_id]
  exact hid

lemma filterMap_parseRow_four_field :
    ∀ rs : List Row,
      (∀ r ∈ rs, 4 ≤ r.length ∧ pyStrip (r.getD 0 []) ≠ []) →
      rs.filterMap parseRow = rs.map recordOfRow := by
  intro rs
  induction rs with
  | nil => intro _; rfl
  | cons r rest ih =>
    intro hall
    have hr := hall r (List.mem_cons_self r rest)
    rw [List.filterMap_cons, List.map_cons,
      parseRow_four_field r hr.1 hr.2,
      ih (fun q hq => hall q (List.mem_cons_of_mem r hq))]

/-- C1 (amended): for a CSV whose first line contains a header keyword and
whose N data rows each have at least 4 fields and a non-empty trimmed first
field, `parse_csv` returns exactly N records in row order; each record's
id and specification are the trimmed columns 0 and 1, and origin and
destination are the trimmed columns 2 and 3 with EVERY occurrence of the
literal substrings "ORIGIN: " / "DESTINATION: " deleted (Python
`str.replace` semantics), not only a leading prefix. -/
theorem parse_csv_four_field_rows (content : Str) (hdr : Row) (rows : List Row)
    (hheader : hasHeader content = true)
    (hrows : ∀ r ∈ rows, 4 ≤ r.length ∧ pyStrip (r.getD 0 []) ≠ []) :
    parse_csv content (hdr :: rows) = rows.map recordOfRow
    ∧ (parse_csv content (hdr :: rows)).length = rows.length := by
  have heq : parse_csv content (hdr :: rows) = rows.map recordOfRow := by
    unfold parse_csv
    rw [if_pos hheader]
    exact filterMap_parseRow_four_field rows hrows
  exact ⟨heq, by rw [heq, List.length_map]⟩

/-- Witness for C1 on a concrete two-row CSV with a header line. -/
theorem parse_csv_four_field_rows_witness :
    hasHeader ("CableID,Spec,Origin,Destination\nC-101,500mm XLPE,Panel A,Panel B".toList)
        = true
    ∧ (∀ r ∈ [["C-101".toList, "500mm XLPE".toList, "Panel A".toList, "Panel B".toList],
              ["C-102".toList, "240mm CU".toList, "ORIGIN: Room 1".toList,
               "DESTINATION: Room 2".toList]],
        4 ≤ r.length ∧ pyStrip (r.getD 0 []) ≠ [])
    ∧ (parse_csv
        "CableID,Spec,Origin,Destination\nC-101,500mm XLPE,Panel A,Panel B".toList
        [["CableID".toList, "Spec".toList, "Origin".toList, "Destination".toList],
         ["C-101".toList, "500mm XLPE".toList, "Panel A".toList, "Panel B".toList],
         ["C-102".toList, "240mm CU".toList, "ORIGIN: Room 1".toList,
          "DESTINATION: Room 2".toList]]).length = 2 :=
  ⟨by decide, by decide,
   (parse_csv_four_field_rows
      "CableID,Spec,Origin,Destination\nC-101,500mm XLPE,Panel A,Panel B".toList
      ["CableID".toList, "Spec".toList, "Origin".toList, "Destination".toList]
      [["C-101".toList, "500mm XLPE".toList, "Panel A".toList, "Panel B".toList],
       ["C-102".toList, "240mm CU".toList, "ORIGIN: Room 1".toList,
        "DESTINATION: Room 2".toList]]
      (by decide) (by decide)).2⟩

/-- Counterexample to C1 as stated: the claim predicts that an origin
field in which "ORIGIN: " occurs but not as a leading prefix is stored
unchanged; the code's `str.replace` deletes the embedded occurrence as
well, turning column 2 value "A ORIGIN: B" into "A B". -/
theorem parse_csv_marker_removed_inside_field :
    ((parse_csv ("id,spec,origin,destination\nC1,X,A ORIGIN: B,D".toList)
        [["id".toList, "spec".toList, "origin".toList, "destination".toList],
         ["C1".toList, "X".toList, "A ORIGIN: B".toList, "D".toList]]).map
      (fun c => c.origin)) = ["A B".toList]
    ∧ "A B".toList ≠ "A ORIGIN: B".toList := by
  constructor
  · decide
  · decide

/-! ## C4 -/

lemma rowsNeeded_eq_ceil (count cols : Nat) (hc : 0 < cols) :
    ((rowsNeeded count cols : ℤ)) = ⌈(count : ℚ) / (cols : ℚ)⌉ := by
  have hcq : (0 : ℚ) < (cols : ℚ) := by exact_mod_cast hc
  have h1 : rowsNeeded count cols * cols ≤ count + cols - 1 := by
    unfold rowsNeeded
    exact Nat.div_mul_le_self _ _
  have h2 : count + cols - 1 < (rowsNeeded count cols + 1) * cols := by
    unfold rowsNeeded
    exact (Nat.div_lt_iff_lt_mul hc).mp (Nat.lt_succ_self _)
  have hA : count ≤ rowsNeeded count cols * cols := by
    rw [Nat.succ_mul] at h2
    generalize rowsNeeded count cols * cols = m at h1 h2 ⊢
    omega
  have hB : rowsNeeded count cols * cols < count + cols := by
    generalize rowsNeeded count cols * cols = m at h1 ⊢
    omega
  symm
  rw [Int.ceil_eq_iff]
  constructor
  · rw [lt_div_iff₀ hcq]
    have hBq : ((rowsNeeded count cols : ℚ)) * (cols : ℚ) < (count : ℚ) + (cols : ℚ) := by
      exact_mod_cast hB
    push_cast
    nlinarith [hBq]
  · rw [div_le_iff₀ hcq]
    have hAq : (count : ℚ) ≤ ((rowsNeeded count cols : ℚ)) * (cols : ℚ) := by
      exact_mod_cast hA
    push_cast
    linarith [hAq]

/-- C4: the item at flat index `idx` is placed at
`row = idx / cols`, `col = idx % cols`, cell origin
`x = s + col*(w+s)` and `y = total_height - (row+1)*(h+s)` with
`total_height = ceil(count/cols)*(h+s) + s`; for 3 columns, index 0
occupies the top-left cell, index 2 the top-right cell, and index 3 starts
the second row from the top. -/
theorem cellOrigin_formula (count cols idx : Nat) (w h s : ℚ) (hc : 0 < cols) :
    cellOrigin count cols w h s idx
        = (s + ((idx % cols : Nat) : ℚ) * (w + s),
           ((rowsNeeded count cols : Nat) : ℚ) * (h + s) + s
             - (((idx / cols : Nat) : ℚ) + 1) * (h + s))
    ∧ ((rowsNeeded count cols : ℤ)) = ⌈(count : ℚ) / (cols : ℚ)⌉
    ∧ cellOrigin count 3 w h s 0 = (s, sheetTotalHeight count 3 h s - (h + s))
    ∧ cellOrigin count 3 w h s 2
        = (s + 2 * (w + s), sheetTotalHeight count 3 h s - (h + s))
    ∧ cellOrigin count 3 w h s 3
        = (s, sheetTotalHeight count 3 h s - 2 * (h + s)) := by
  refine ⟨rfl, rowsNeeded_eq_ceil count cols hc, ?_, ?_, ?_⟩
  · unfold cellOrigin
    norm_num
  · unfold cellOrigin
    norm_num
  · unfold cellOrigin
    norm_num

/-- Witness for C4 on the real sheet parameters (18 labels, 3 columns,
180 x 45 labels, spacing 2): index 3 starts the second row. -/
theorem cellOrigin_formula_witness :
    (0 : Nat) < 3
    ∧ cellOrigin 18 3 180 45 2 3
        = ((2 : ℚ), sheetTotalHeight 18 3 45 2 - 2 * (45 + 2)) :=
  ⟨by norm_num, (cellOrigin_formula 18 3 3 180 45 2 (by norm_num)).2.2.2.2⟩

/-! ## C6 -/

lemma cutting_beq_hole : (cuttingLayer == holeLayer) = false := by decide

lemma text_beq_hole : (textLayer == holeLayer) = false := by decide

lemma hole_beq_hole : (holeLayer == holeLayer) = true := by decide

lemma holePts_eq_centered (hx hy : ℚ) :
    holePts hx hy = centeredClosedRect hx hy 5 (5 / 2) := rfl

/-- C6: every label (individual or grid cell) drawn at origin `(x, y)` with
footprint `(w, h)` starts with the closed outline rectangle through
`(x,y), (x+w,y), (x+w,y+h), (x,y+h)` (first point repeated) on the
"Cutting" layer, and carries exactly 4 entities on the "Hole" layer, each
a closed rectangle of the fixed size 5 x 2.5 centered at a corner point
offset inward by 5 units from both edges — the hole size and offset do not
depend on `w`, `h`. -/
theorem label_outline_and_holes (cable : CableData) (x y w h lw lh : ℚ) :
    (drawLabelAtPosition cable x y w h).head?
        = some (Entity.polyline
            [(x, y), (x + w, y), (x + w, y + h), (x, y + h), (x, y)] cuttingLayer)
    ∧ (drawLabelAtPosition cable x y w h).filter (fun e => e.layerOf == holeLayer)
        = [Entity.polyline (centeredClosedRect (x + 5) (y + 5) 5 (5 / 2)) holeLayer,
           Entity.polyline (centeredClosedRect (x + w - 5) (y + 5) 5 (5 / 2)) holeLayer,
           Entity.polyline (centeredClosedRect (x + 5) (y + h - 5) 5 (5 / 2)) holeLayer,
           Entity.polyline
             (centeredClosedRect (x + w - 5) (y + h - 5) 5 (5 / 2)) holeLayer]
    ∧ (create_label_dxf cable lw lh).head?
        = some (Entity.polyline
            [(0, 0), (lw, 0), (lw, lh), (0, lh), (0, 0)] cuttingLayer)
    ∧ (create_label_dxf cable lw lh).filter (fun e => e.layerOf == holeLayer)
        = [Entity.polyline (centeredClosedRect 5 5 5 (5 / 2)) holeLayer,
           Entity.polyline (centeredClosedRect (lw - 5) 5 5 (5 / 2)) holeLayer,
           Entity.polyline (centeredClosedRect 5 (lh - 5) 5 (5 / 2)) holeLayer,
           Entity.polyline (centeredClosedRect (lw - 5) (lh - 5) 5 (5 / 2)) holeLayer] := by
  refine ⟨?_, ?_, ?_, ?_⟩
  · simp [drawLabelAtPosition]
  · by_cases ho : cable.origin = [] <;> by_cases hd : cable.destination = [] <;>
      simp [drawLabelAtPosition, ho, hd, List.filter_append, Entity.layerOf,
        cutting_beq_hole, text_beq_hole, hole_beq_hole, holePts_eq_centered]
  · simp [create_label_dxf]
  · by_cases ho : cable.origin = [] <;> by_cases hd : cable.destination = [] <;>
      simp [create_label_dxf, ho, hd, List.filter_append, Entity.layerOf,
        cutting_beq_hole, text_beq_hole, hole_beq_hole, holePts_eq_centered]

/-! ## C7 -/

/-- C7: when a specification is longer than the limit, the rendered
specification text (the second text entity of the label) is its first 55
characters on an individual label and its first 50 characters on a grid
cell; at or under the limit it is rendered in full; and the record's
stored `specification` field is unchanged by rendering. -/
theorem spec_text_truncation (cable : CableData) (lw lh x y w h : ℚ)
    (msp : List Entity) :
    (cable.specification.length > 55 →
      (textsOf (create_label_dxf cable lw lh)).getD 1 []
          = cable.specification.take 55)
    ∧ (cable.specification.length ≤ 55 →
      (textsOf (create_label_dxf cable lw lh)).getD 1 [] = cable.specification)
    ∧ (cable.specification.length > 50 →
      (textsOf (drawLabelAtPosition cable x y w h)).getD 1 []
          = cable.specification.take 50)
    ∧ (cable.specification.length ≤ 50 →
      (textsOf (drawLabelAtPosition cable x y w h)).getD 1 []
          = cable.specification)
    ∧ (drawLabelCall msp cable x y w h).2.specification = cable.specification := by
  refine ⟨?_, ?_, ?_, ?_, rfl⟩
  · intro hlen
    by_cases ho : cable.origin = [] <;> by_cases hd : cable.destination = [] <;>
      simp [create_label_dxf, textsOf, ho, hd, hlen]
  · intro hlen
    by_cases ho : cable.origin = [] <;> by_cases hd : cable.destination = [] <;>
      simp [create_label_dxf, textsOf, ho, hd, Nat.not_lt.mpr hlen]
  · intro hlen
    by_cases ho : cable.origin = [] <;> by_cases hd : cable.destination = [] <;>
      simp [drawLabelAtPosition, textsOf, ho, hd, hlen]
  · intro hlen
    by_cases ho : cable.origin = [] <;> by_cases hd : cable.destination = [] <;>
      simp [drawLabelAtPosition, textsOf, ho, hd, Nat.not_lt.mpr hlen]

/-- Witness for C7: a 60-character specification is rendered truncated to
its first 55 characters on an individual label. -/
theorem spec_text_truncation_witness :
    ("ABCDEFGHIJKLMNOPQRSTUVWXYZabcdefghijklmnopqrstuvwxyz01234567".toList.length > 55)
    ∧ (textsOf (create_label_dxf
        (mkCableData ("C-1".toList)
          "ABCDEFGHIJKLMNOPQRSTUVWXYZabcdefghijklmnopqrstuvwxyz01234567".toList [] [])
        80 40)).getD 1 []
      = (mkCableData ("C-1".toList)
          "ABCDEFGHIJKLMNOPQRSTUVWXYZabcdefghijklmnopqrstuvwxyz01234567".toList [] []
        ).specification.take 55 :=
  ⟨by decide,
   (spec_text_truncation
      (mkCableData ("C-1".toList)
        "ABCDEFGHIJKLMNOPQRSTUVWXYZabcdefghijklmnopqrstuvwxyz01234567".toList [] [])
      80 40 0 0 180 45 []).1 (by decide)⟩

/-! ## C9 -/

/-- C9: the label-drawing call is deterministic and effect-free on its
inputs: two invocations with the same record, origin and footprint append
two identical entity blocks to the modelspace, and the record after a call
equals the record before it. -/
theorem drawLabelCall_pure (msp : List Entity) (cable : CableData) (x y w h : ℚ) :
    (drawLabelCall msp cable x y w h).2 = cable
    ∧ ∃ block : List Entity,
        (drawLabelCall msp cable x y w h).1 = msp ++ block
        ∧ (drawLabelCall (drawLabelCall msp cable x y w h).1
             (drawLabelCall msp cable x y w h).2 x y w h).1
            = msp ++ block ++ block := by
  refine ⟨rfl, drawLabelAtPosition cable x y w h, rfl, ?_⟩
  simp [drawLabelCall]

/-! ## C5 -/

/-- C5 is violated by the code: with two cables and individual output
requested, a failing write of the first file `cable_C1.dxf` ends the whole
run — the remaining planned files `cable_C2.dxf` and
`cable_labels_sheet_01.dxf` are never attempted, although the claim says
the run continues with them. -/
theorem run_aborts_at_first_write_failure :
    generate_all_labels
        [mkCableData ("C1".toList) "spec1".toList [] [],
         mkCableData ("C2".toList) "spec2".toList [] []] true true
      = ["cable_C1.dxf".toList, "cable_C2.dxf".toList,
         "cable_labels_sheet_01.dxf".toList]
    ∧ runGeneration (fun f => !(f == "cable_C1.dxf".toList))
        [mkCableData ("C1".toList) "spec1".toList [] [],
         mkCableData ("C2".toList) "spec2".toList [] []] true true
      = ([], false) := by
  constructor
  · decide
  · decide

/-! ## C8 -/

lemma pyReplaceAux_single (a b : Char) :
    ∀ (n : Nat) (s : Str), s.length ≤ n →
      pyReplaceAux [a] [b] s n = s.map (fun c => if c = a then b else c) := by
  intro n
  induction n with
  | zero =>
    intro s hs
    cases s with
    | nil => rfl
    | cons c cs => simp at hs
  | succ n ih =>
    intro s hs
    cases s with
    | nil => rfl
    | cons c cs =>
      show (if [a].isPrefixOf (c :: cs) then
              [b] ++ pyReplaceAux [a] [b] ((c :: cs).drop 1) n
            else c :: pyReplaceAux [a] [b] cs n)
          = (c :: cs).map (fun x => if x = a then b else x)
      by_cases hca : c = a
      · rw [if_pos]
        · simp only [List.drop_succ_cons, List.drop_zero, List.singleton_append]
          rw [ih cs (by simpa using hs)]
          simp [hca]
        · simp [List.isPrefixOf, hca]
      · rw [if_neg]
        · simp only [List.map_cons, if_neg hca]
          rw [ih cs (by simpa using hs)]
        · simp only [List.isPrefixOf, Bool.and_eq_true, beq_iff_eq]
          exact fun hpre => hca hpre.1.symm

lemma pyReplace_slash (s : Str) :
    pyReplace ['/'] ['_'] s = s.map (fun c => if c = '/' then '_' else c) :=
  pyReplaceAux_single '/' '_' s.length s le_rfl

/-- C8: the individual-label file for a cable is named `cable_` followed by
the cable id with every '/' replaced by '_' and extension `.dxf`; the k-th
sheet file (1-based) is `cable_labels_sheet_NN.dxf` with NN the sheet
number zero-padded to two digits, starting at 01. -/
theorem output_filenames (cables : List CableData) (k : Nat)
    (hk : k < (sheetFiles cables).length) :
    individualFiles cables
        = cables.map (fun c =>
            "cable_".toList
              ++ c.cable_id.map (fun ch => if ch = '/' then '_' else ch)
              ++ ".dxf".toList)
    ∧ (sheetFiles cables).getD k []
        = "cable_labels_sheet_".toList ++ pad2 (k + 1) ++ ".dxf".toList
    ∧ pad2 1 = "01".toList
    ∧ (∀ m, m < 100 → 0 < m → (pad2 m).length = 2) := by
  refine ⟨?_, ?_, by decide, by decide⟩
  · unfold individualFiles individualFilename
    simp [pyReplace_slash]
  · have hk' : k < (List.range (pyBatches cables).length).length := by
      simpa [sheetFiles] using hk
    unfold sheetFiles
    rw [List.getD_eq_getElem _ _ (by simpa using hk')]
    simp [sheetFilename]

/-- Witness for C8: one cable whose id contains '/'; the single sheet file
is `cable_labels_sheet_01.dxf`. -/
theorem output_filenames_witness :
    (0 < (sheetFiles [mkCableData ("A/B".toList) [] [] []]).length)
    ∧ (sheetFiles [mkCableData ("A/B".toList) [] [] []]).getD 0 []
        = "cable_labels_sheet_".toList ++ pad2 1 ++ ".dxf".toList
    ∧ individualFiles [mkCableData ("A/B".toList) [] [] []]
        = [mkCableData ("A/B".toList) [] [] []].map (fun c =>
            "cable_".toList
              ++ c.cable_id.map (fun ch => if ch = '/' then '_' else ch)
              ++ ".dxf".toList) :=
  ⟨by decide,
   (output_filenames [mkCableData ("A/B".toList) [] [] []] 0 (by decide)).2.1,
   (output_filenames [mkCableData ("A/B".toList) [] [] []] 0 (by decide)).1⟩

/-! ## C10 -/

lemma Rect.disjoint_of_gap (r1 r2 : Rect)
    (hgap : r1.x + r1.w < r2.x ∨ r2.x + r2.w < r1.x
      ∨ r1.y + r1.h < r2.y ∨ r2.y + r2.h < r1.y) :
    Disjoint r1.toSet r2.toSet := by
  rw [Set.disjoint_left]
  rintro ⟨px, py⟩ hp1 hp2
  simp only [Rect.toSet, Set.mem_setOf_eq] at hp1 hp2
  obtain ⟨h1a, h1b, h1c, h1d⟩ := hp1
  obtain ⟨h2a, h2b, h2c, h2d⟩ := hp2
  rcases hgap with hg | hg | hg | hg <;> linarith

lemma cast_succ_le_of_lt {a b : Nat} (hab : a < b) : ((a : ℚ)) + 1 ≤ (b : ℚ) := by
  exact_mod_cast hab

lemma cell_x_gap (count cols : Nat) (w h s : ℚ) (hw : 0 ≤ w) (hs : 0 < s)
    (i j : Nat) (hrow : i / cols = j / cols) (hcol : i % cols < j % cols) :
    (cellRect count cols w h s i).x + w + s ≤ (cellRect count cols w h s j).x := by
  have hcast := cast_succ_le_of_lt hcol
  have hws : (0 : ℚ) < w + s := by linarith
  have hmul := mul_le_mul_of_nonneg_right hcast (le_of_lt hws)
  have hexp : (((i % cols : Nat) : ℚ) + 1) * (w + s)
      = ((i % cols : Nat) : ℚ) * (w + s) + (w + s) := by ring
  simp only [cellRect, cellOrigin]
  rw [hexp] at hmul
  linarith

lemma cell_y_gap (count cols : Nat) (w h s : ℚ) (hh : 0 ≤ h) (hs : 0 < s)
    (i j : Nat) (hrow : i / cols < j / cols) :
    (cellRect count cols w h s j).y + h + s ≤ (cellRect count cols w h s i).y := by
  have hcast := cast_succ_le_of_lt hrow
  have hhs : (0 : ℚ) < h + s := by linarith
  have hmul := mul_le_mul_of_nonneg_right hcast (le_of_lt hhs)
  have hexp : (((i / cols : Nat) : ℚ) + 1) * (h + s)
      = ((i / cols : Nat) : ℚ) * (h + s) + (h + s) := by ring
  simp only [cellRect, cellOrigin]
  rw [hexp] at hmul
  linarith

/-- C10: with positive spacing (and non-negative footprint), the outline
rectangles of two distinct grid cells of the same sheet are disjoint:
same-row cells are separated horizontally by at least the spacing,
different-row cells vertically by at least the spacing, so no two labels
overlap. -/
theorem grid_cells_disjoint (count cols i j : Nat) (w h s : ℚ)
    (hc : 0 < cols) (hw : 0 ≤ w) (hh : 0 ≤ h) (hs : 0 < s) (hij : i ≠ j) :
    Disjoint ((cellRect count cols w h s i).toSet)
      ((cellRect count cols w h s j).toSet)
    ∧ (i / cols = j / cols → i % cols < j % cols →
        (cellRect count cols w h s i).x + w + s ≤ (cellRect count cols w h s j).x)
    ∧ (i / cols < j / cols →
        (cellRect count cols w h s j).y + h + s ≤ (cellRect count cols w h s i).y) := by
  refine ⟨?_, cell_x_gap count cols w h s hw hs i j,
    cell_y_gap count cols w h s hh hs i j⟩
  rcases Nat.lt_trichotomy (i / cols) (j / cols) with hr | hr | hr
  · apply Rect.disjoint_of_gap
    right; right; right
    have hgap := cell_y_gap count cols w h s hh hs i j hr
    simp only [cellRect] at hgap ⊢
    linarith
  · have hm : i % cols ≠ j % cols := by
      intro hmod
      apply hij
      calc i = cols * (i / cols) + i % cols := (Nat.div_add_mod i cols).symm
        _ = cols * (j / cols) + j % cols := by rw [hr, hmod]
        _ = j := Nat.div_add_mod j cols
    rcases Nat.lt_trichotomy (i % cols) (j % cols) with hcl | hcl | hcl
    · apply Rect.disjoint_of_gap
      left
      have hgap := cell_x_gap count cols w h s hw hs i j hr hcl
      simp only [cellRect] at hgap ⊢
      linarith
    · exact absurd hcl hm
    · apply Rect.disjoint_of_gap
      right; left
      have hgap := cell_x_gap count cols w h s hw hs j i hr.symm hcl
      simp only [cellRect] at hgap ⊢
      linarith
  · apply Rect.disjoint_of_gap
    right; right; left
    have hgap := cell_y_gap count cols w h s hh hs j i hr
    simp only [cellRect] at hgap ⊢
    linarith

/-- Witness for C10 at the real sheet parameters: cells 0 and 1 of an
18-label, 3-column sheet with 180 x 45 labels and spacing 2 are disjoint. -/
theorem grid_cells_disjoint_witness :
    ((0 : Nat) < 3 ∧ (0 : ℚ) ≤ 180 ∧ (0 : ℚ) ≤ 45 ∧ (0 : ℚ) < 2
      ∧ (0 : Nat) ≠ 1)
    ∧ Disjoint ((cellRect 18 3 180 45 2 0).toSet)
        ((cellRect 18 3 180 45 2 1).toSet) :=
  ⟨⟨by norm_num, by norm_num, by norm_num, by norm_num, by norm_num⟩,
   (grid_cells_disjoint 18 3 0 1 180 45 2 (by norm_num) (by norm_num)
      (by norm_num) (by norm_num) (by norm_num)).1⟩
